import Mathlib

/-!
Verification development for the KnowDEGs differential-gene-expression report
generator (src/app.py). The script loads a CSV into a pandas DataFrame,
derives a `Regulation` column, defaults an `IsHub` column, computes summary
counts and top-5 subsets, issues annotation lookups for the first 10 distinct
gene symbols, runs a two-step enrichment request inside one try/except, and
offers a CSV export of the augmented table.

Modelling conventions:
- a pandas cell is `Cell`: a numeric value (`ℚ`, standing for float64; NaN is
  `Cell.na`), or a string;
- a DataFrame is a column-name list plus row-major cell lists;
- an uploaded stream is `Option DataFrame`: `none` stands for bytes that
  `pd.read_csv` rejects; a parsed frame must be rectangular (pandas yields a
  rectangular frame or raises);
- fallible steps (pandas `KeyError` on a missing column, `TypeError` from
  comparing a string with a number, parse failure) are `Except AppError`;
- float comparisons with NaN are false, matching numpy (`nan > 1` is `False`,
  `nan <= 1` is `False`);
- `df.to_csv(index=False)` followed by `pd.read_csv` reproduces header and
  cell values (float64 repr round-trips), modelled value-faithfully by
  `exportTable` / `parseCsv`.
-/


/-! ## Definitions -/


/-- A single cell of the loaded table: a float (with `na` for NaN) or a string. -/
inductive Cell where
  | num : ℚ → Cell
  | str : String → Cell
  | na : Cell

deriving DecidableEq, Repr

def Cell.isStr : Cell → Bool
  | .str _ => true
  | _ => false

def Cell.isNa : Cell → Bool
  | .na => true
  | _ => false

def Cell.isNum : Cell → Bool
  | .num _ => true
  | _ => false

/-- The comparison `x > 1` of app.py line 18/28 on a cell. `nan > 1` is `False`
in numpy/Python; a string cell would raise `TypeError` (callers check for
string cells first, see `augment`). -/
def cellGtOne : Cell → Bool
  | .num x => decide (1 < x)
  | _ => false

/-- The comparison `x <= 1` of app.py line 29. `nan <= 1` is `False`. -/
def cellLeOne : Cell → Bool
  | .num x => decide (x ≤ 1)
  | _ => false

/-- Lower-casing of `.str.lower()`, written over the character list (the
strings this program compares are ASCII). -/
def lowerStr (s : String) : String :=
  String.mk (s.data.map Char.toLower)

/-- The mask `df["IsHub"].str.lower() == "yes"` of app.py line 30: `.str.lower`
maps non-strings to NaN, and `NaN == "yes"` is `False`. -/
def cellIsYes : Cell → Bool
  | .str s => lowerStr s == "yes"
  | _ => false

/-- The value written by the lambda of app.py line 18 for one cell of the
`log2(FC)` column. -/
def regulationCell (c : Cell) : Cell :=
  .str (if cellGtOne c then "Up" else "Down")

/-- `str(x)` as used by `.astype(str)` on app.py line 76. -/
def cellToString : Cell → String
  | .num q => toString q
  | .str s => s
  | .na => "nan"

/-- An in-memory pandas DataFrame: ordered column names and row-major cells. -/
structure DataFrame where
  cols : List String
  rows : List (List Cell)

deriving DecidableEq, Repr

/-- The errors the script can hit: `pd.read_csv` parse failure, `KeyError` on
a missing column, `TypeError` from comparing a string cell with a number. -/
inductive AppError where
  | parseError : AppError
  | keyError : String → AppError
  | typeError : AppError

deriving DecidableEq, Repr

deriving instance DecidableEq for Except

/-- Position of the first column with the given name (pandas label lookup). -/
def colIdx? : List String → String → Option Nat
  | [], _ => none
  | c :: cs, n => if c = n then some 0 else (colIdx? cs n).map (· + 1)

/-- Rectangularity of a frame: every row has one cell per column. -/
def wfB (df : DataFrame) : Bool :=
  df.rows.all (fun r => r.length == df.cols.length)

/-- Column read `df[c]` as a value list; `KeyError` when the label is absent. -/
def getCol (df : DataFrame) (c : String) : Except AppError (List Cell) :=
  match colIdx? df.cols c with
  | none => .error (.keyError c)
  | some i => .ok (df.rows.map (fun r => r.getD i Cell.na))

/-- The cell of row `r` under column label `c`, given the column list. -/
def cellAt (cols : List String) (c : String) (r : List Cell) : Cell :=
  match colIdx? cols c with
  | none => Cell.na
  | some i => r.getD i Cell.na

/-- Column write `df[c] = vals`: overwrite in place when the label exists,
otherwise append the new column on the right (pandas assignment semantics). -/
def setColumn (df : DataFrame) (c : String) (vals : List Cell) : DataFrame :=
  match colIdx? df.cols c with
  | some j => ⟨df.cols, List.zipWith (fun r v => r.set j v) df.rows vals⟩
  | none => ⟨df.cols ++ [c], List.zipWith (fun r v => r ++ [v]) df.rows vals⟩

/-- app.py line 15, `pd.read_csv(uploaded_file)`: a stream that is not valid
delimited tabular data raises (`none`), and a parsed frame is rectangular. -/
def parseStream : Option DataFrame → Except AppError DataFrame
  | none => .error .parseError
  | some df => if wfB df then .ok df else .error .parseError

/-- app.py lines 18-22: derive `Regulation` from `log2(FC)` (KeyError when the
column is missing, TypeError when the lambda compares a string cell with 1)
and default `IsHub` to "Unknown" when absent. -/
def augment (df : DataFrame) : Except AppError DataFrame :=
  match colIdx? df.cols "log2(FC)" with
  | none => .error (.keyError "log2(FC)")
  | some i =>
    if df.rows.any (fun r => (r.getD i Cell.na).isStr) then .error .typeError
    else
      let df₂ := setColumn df "Regulation"
        (df.rows.map (fun r => regulationCell (r.getD i Cell.na)))
      .ok (if "IsHub" ∈ df₂.cols then df₂
           else setColumn df₂ "IsHub" (List.replicate df₂.rows.length (Cell.str "Unknown")))

/-- The Table Loader: parse the uploaded stream and augment it (lines 15-22). -/
def loadTable (stream : Option DataFrame) : Except AppError DataFrame := do
  let df ← parseStream stream
  augment df

/-- app.py line 28: `up_genes = df[df["log2(FC)"] > 1]`. -/
def upGenes (df : DataFrame) : DataFrame :=
  ⟨df.cols, df.rows.filter (fun r => cellGtOne (cellAt df.cols "log2(FC)" r))⟩

/-- app.py line 29: `down_genes = df[df["log2(FC)"] <= 1]`. -/
def downGenes (df : DataFrame) : DataFrame :=
  ⟨df.cols, df.rows.filter (fun r => cellLeOne (cellAt df.cols "log2(FC)" r))⟩

/-- app.py line 30: `hub_genes = df[df["IsHub"].str.lower() == "yes"]`. -/
def hubGenes (df : DataFrame) : DataFrame :=
  ⟨df.cols, df.rows.filter (fun r => cellIsYes (cellAt df.cols "IsHub" r))⟩

/-- Sort key of `nlargest(5, "log2(FC)")`: the row's `log2(FC)` float. Rows of
`up_genes`/`down_genes` always carry a numeric value there (NaN and string
cells never pass the filters), so the default is unreachable. -/
def keyOf (df : DataFrame) (r : List Cell) : ℚ :=
  match cellAt df.cols "log2(FC)" r with
  | .num x => x
  | _ => 0

/-- Descending comparison used for `nlargest` (ties keep earlier rows first). -/
def rdesc (df : DataFrame) (a b : List Cell) : Prop :=
  keyOf df b ≤ keyOf df a

instance (df : DataFrame) : DecidableRel (rdesc df) :=
  fun a b => inferInstanceAs (Decidable (keyOf df b ≤ keyOf df a))

/-- Ascending comparison used for `nsmallest`. -/
def rasc (df : DataFrame) (a b : List Cell) : Prop :=
  keyOf df a ≤ keyOf df b

instance (df : DataFrame) : DecidableRel (rasc df) :=
  fun a b => inferInstanceAs (Decidable (keyOf df a ≤ keyOf df b))

/-- app.py line 39, `up_genes.nlargest(5, "log2(FC)")`: the rows of `up_genes`
stably sorted by descending `log2(FC)` (ties keep the first occurrences, the
pandas `keep="first"` default), truncated to 5. -/
def topUpRows (df : DataFrame) : List (List Cell) :=
  (List.insertionSort (rdesc df) (upGenes df).rows).take 5

/-- app.py line 40, `down_genes.nsmallest(5, "log2(FC)")`. -/
def topDownRows (df : DataFrame) : List (List Cell) :=
  (List.insertionSort (rasc df) (downGenes df).rows).take 5

/-- Deduplication in first-occurrence order with a seen-set accumulator, as
`pandas.Series.unique` (hash-set based, keeps first occurrences). -/
def dedupFirstAux (seen : List Cell) : List Cell → List Cell
  | [] => []
  | c :: cs => if c ∈ seen then dedupFirstAux seen cs else c :: dedupFirstAux (c :: seen) cs

/-- Deduplication in first-occurrence order, as `pandas.Series.unique`. -/
def dedupFirst (l : List Cell) : List Cell :=
  dedupFirstAux [] l

/-- app.py line 57: `df["Gene_Symbol"].dropna().unique().tolist()[:10]` — the
identifiers the Annotation Client looks up, one HTTP GET per element. -/
def annotRequests (df : DataFrame) : Except AppError (List Cell) := do
  let g ← getCol df "Gene_Symbol"
  pure ((dedupFirst (g.filter (fun c => !c.isNa))).take 10)

/-- One JSON object of the MyGene.info `hits` array, with its optional
`name` and `summary` fields (app.py lines 64-66). -/
structure Hit where
  hitName : Option String
  hitSummary : Option String

deriving DecidableEq, Repr

/-- Outcome of one MyGene.info lookup: a non-200 status, or a 200 response
with a `hits` array (app.py lines 60-63). -/
inductive AnnotResp where
  | httpFail : AnnotResp
  | ok : List Hit → AnnotResp

deriving DecidableEq, Repr

/-- The markdown line rendered for one gene (app.py lines 61-71). -/
inductive AnnotMsg where
  | annotated : Cell → String → String → AnnotMsg
  | noMatch : Cell → AnnotMsg
  | requestFailed : Cell → AnnotMsg

deriving DecidableEq, Repr

/-- app.py lines 59-71: render one gene's annotation from its response. -/
def annotMsg (g : Cell) (resp : AnnotResp) : AnnotMsg :=
  match resp with
  | .httpFail => .requestFailed g
  | .ok [] => .noMatch g
  | .ok (h :: _) => .annotated g (h.hitName.getD "N/A") (h.hitSummary.getD "No summary available.")

/-- One message displayed by the enrichment section (app.py lines 93-120). -/
inductive Msg where
  | errorMsg : Msg
  | infoMsg : Msg
  | termTable : List (Cell × Cell × Cell) → Msg
  | chartMsg : List (Cell × Cell × Cell) → Msg

deriving DecidableEq, Repr

def isErr : Msg → Bool
  | .errorMsg => true
  | _ => false

/-- Outcome of the two network steps of the enrichment protocol, as returned
by the service for this render pass. Outer `none`: `requests.post`/`get` or
`.json()` raised; inner `none`: the expected key (`userListId`, app.py line
85, or `KEGG_2021_Human`, line 91) is missing, a `KeyError`. -/
def getTerms (addResp : Option (Option Nat))
    (enrResp : Nat → Option (Option (List (List Cell)))) :
    Except Unit (List (List Cell)) :=
  match addResp with
  | none => .error ()
  | some none => .error ()
  | some (some id) =>
    match enrResp id with
    | none => .error ()
    | some none => .error ()
    | some (some terms) => .ok terms

/-- app.py lines 96-100: `term[1]`, `term[2]`, `term[5]` — IndexError (caught
by the surrounding try) when an entry is too short. -/
def extractTerm (t : List Cell) : Except Unit (Cell × Cell × Cell) :=
  match t.get? 1, t.get? 2, t.get? 5 with
  | some a, some b, some c => .ok (a, b, c)
  | _, _, _ => .error ()

/-- app.py line 107, `-np.log10(enrich_df["P-value"])`: raises TypeError on a
string entry; numeric (even non-positive) and NaN entries only warn. -/
def chartVals (rows : List (Cell × Cell × Cell)) : Except Unit Unit :=
  if rows.all (fun x => !x.2.1.isStr) then .ok () else .error ()

/-- app.py lines 79-120: the whole two-step enrichment block inside one
try/except. Any exception at any step is converted to a single `st.error`;
an empty term array gives the `st.info` "no results" branch; otherwise the
term table is shown and then the chart (an exception between the two leaves
the table displayed followed by one error). -/
def enrichSection (addResp : Option (Option Nat))
    (enrResp : Nat → Option (Option (List (List Cell)))) : List Msg :=
  match getTerms addResp enrResp with
  | .error _ => [.errorMsg]
  | .ok terms =>
    if terms.isEmpty then [.infoMsg]
    else
      match (terms.take 5).mapM extractTerm with
      | .error _ => [.errorMsg]
      | .ok rows =>
        match chartVals rows with
        | .error _ => [.termTable rows, .errorMsg]
        | .ok _ => [.termTable rows, .chartMsg rows]

/-- Whether some step of the enrichment block raises an exception with the
given service responses. -/
def enrichRaisesB (addResp : Option (Option Nat))
    (enrResp : Nat → Option (Option (List (List Cell)))) : Bool :=
  match getTerms addResp enrResp with
  | .error _ => true
  | .ok terms =>
    !terms.isEmpty &&
      (match (terms.take 5).mapM extractTerm with
       | .error _ => true
       | .ok rows =>
         match chartVals rows with
         | .error _ => true
         | .ok _ => false)

/-- Positions of a list of column labels; `KeyError` on the first missing one. -/
def colIdxs (df : DataFrame) : List String → Except AppError (List Nat)
  | [] => .ok []
  | c :: cs =>
    match colIdx? df.cols c with
    | none => .error (.keyError c)
    | some i =>
      match colIdxs df cs with
      | .error e => .error e
      | .ok is => .ok (i :: is)

/-- app.py line 43/46: `top[["Gene_Symbol", "log2(FC)", "Padj"]]` — KeyError
when one of the labels is missing. -/
def selectCols (df : DataFrame) (cs : List String) : Except AppError (List (List Cell)) :=
  match colIdxs df cs with
  | .error e => .error e
  | .ok idxs => .ok (df.rows.map (fun r => idxs.map (fun i => r.getD i Cell.na)))

/-- Everything one render pass displays, in source order. -/
structure Report where
  upCount : Nat
  downCount : Nat
  hubCount : Nat
  topUpTable : List (List Cell)
  topDownTable : List (List Cell)
  chart : Nat × Nat
  annots : List AnnotMsg
  enrichMsgs : List Msg
  exportDf : DataFrame

deriving DecidableEq, Repr

/-- One full render pass of app.py (lines 14-124): load and augment the
table, summary metrics, top-5 tables, regulation bar chart, the ≤10
annotation lookups, the guarded enrichment section, and the export payload.
An uncaught exception (parse failure, missing column) aborts the pass. -/
def buildReport (stream : Option DataFrame) (annot : Cell → AnnotResp)
    (addResp : Option (Option Nat))
    (enrResp : Nat → Option (Option (List (List Cell)))) :
    Except AppError Report := do
  let df ← loadTable stream
  let tu ← selectCols ⟨df.cols, topUpRows df⟩ ["Gene_Symbol", "log2(FC)", "Padj"]
  let td ← selectCols ⟨df.cols, topDownRows df⟩ ["Gene_Symbol", "log2(FC)", "Padj"]
  let reqs ← annotRequests df
  let g2 ← getCol df "Gene_Symbol"
  let _payload := "\n".intercalate ((g2.filter (fun c => !c.isNa)).map cellToString)
  pure
    { upCount := (upGenes df).rows.length
      downCount := (downGenes df).rows.length
      hubCount := (hubGenes df).rows.length
      topUpTable := tu
      topDownTable := td
      chart := ((upGenes df).rows.length, (downGenes df).rows.length)
      annots := reqs.map (fun c => annotMsg c (annot c))
      enrichMsgs := enrichSection addResp enrResp
      exportDf := df }

/-- The downloadable CSV artifact: header row plus data records. -/
structure Csv where
  header : List String
  records : List (List Cell)

deriving DecidableEq, Repr

/-- app.py line 124, `df.to_csv(index=False)`: serialize the augmented table
(cell values round-trip through the float64/string text form). -/
def exportTable (df : DataFrame) : Csv :=
  ⟨df.cols, df.rows⟩

/-- Reading the exported artifact back with `pd.read_csv`. -/
def parseCsv (c : Csv) : DataFrame :=
  ⟨c.header, c.records⟩

/-- The augmented frame produced by a successful load, as an explicit value
(`i` is the position of the `log2(FC)` column). -/
def augmentedOf (df : DataFrame) (i : Nat) : DataFrame :=
  let df₂ := setColumn df "Regulation" (df.rows.map (fun r => regulationCell (r.getD i Cell.na)))
  if "IsHub" ∈ df₂.cols then df₂
  else setColumn df₂ "IsHub" (List.replicate df₂.rows.length (Cell.str "Unknown"))

/-- The rational 2.3 in lowest terms (kernel-reducible representation). -/
def q23 : ℚ := ⟨23, 10, by norm_num, by norm_num⟩

/-- The rational -1.5 in lowest terms. -/
def qm15 : ℚ := ⟨-3, 2, by norm_num, by norm_num⟩

/-- The rational 0.001 in lowest terms. -/
def q0001 : ℚ := ⟨1, 1000, by norm_num, by norm_num⟩

/-- The rational 0.02 in lowest terms. -/
def q002 : ℚ := ⟨1, 50, by norm_num, by norm_num⟩

/-- Input of the C1 witness: the spec's two example rows. -/
def c1in : DataFrame :=
  ⟨["Gene_Symbol", "log2(FC)", "Padj"],
   [[.str "TP53", .num q23, .num q0001],
    [.str "BRCA1", .num qm15, .num q002]]⟩

def c1row0 : List Cell :=
  [.str "TP53", .num q23, .num q0001, .str "Up", .str "Unknown"]

def c1row1 : List Cell :=
  [.str "BRCA1", .num qm15, .num q002, .str "Down", .str "Unknown"]

/-- Augmented table the loader produces from `c1in`. -/
def c1out : DataFrame :=
  ⟨["Gene_Symbol", "log2(FC)", "Padj", "Regulation", "IsHub"], [c1row0, c1row1]⟩

/-- Input of the C9 witness: no IsHub column. -/
def c9in : DataFrame :=
  ⟨["Gene_Symbol", "log2(FC)", "Padj"],
   [[.str "A", .num 2, .num 0], [.str "B", .num 0, .num 0]]⟩

/-- Loader output for `c9in`. -/
def c9out : DataFrame :=
  ⟨["Gene_Symbol", "log2(FC)", "Padj", "Regulation", "IsHub"],
   [[.str "A", .num 2, .num 0, .str "Up", .str "Unknown"],
    [.str "B", .num 0, .num 0, .str "Down", .str "Unknown"]]⟩

/-- Input of the C10 witness: it already carries a `Regulation` column with
garbage values (to see it overwritten) and an extra column (to see it kept). -/
def c10in : DataFrame :=
  ⟨["Gene_Symbol", "Regulation", "log2(FC)", "Extra"],
   [[.str "G1", .str "garbage", .num 2, .num 7],
    [.str "G2", .str "junk", .num 0, .str "keep"]]⟩

/-- Loader output for `c10in`: `Regulation` overwritten in place, `IsHub`
appended, everything else untouched. -/
def c10out : DataFrame :=
  ⟨["Gene_Symbol", "Regulation", "log2(FC)", "Extra", "IsHub"],
   [[.str "G1", .str "Up", .num 2, .num 7, .str "Unknown"],
    [.str "G2", .str "Down", .num 0, .str "keep", .str "Unknown"]]⟩

/-- C2 counterexample input: one row whose `log2(FC)` cell is NaN (an empty
CSV field). `nan > 1` and `nan <= 1` are both false, so the row lands in
neither `up_genes` nor `down_genes`. -/
def c2in : DataFrame :=
  ⟨["Gene_Symbol", "log2(FC)", "Padj"], [[.str "G1", .na, .num 0]]⟩

/-- Loader output for `c2in` (the NaN row is classified "Down"). -/
def c2out : DataFrame :=
  ⟨["Gene_Symbol", "log2(FC)", "Padj", "Regulation", "IsHub"],
   [[.str "G1", .na, .num 0, .str "Down", .str "Unknown"]]⟩

/-- Input of the C2 witness: all `log2(FC)` values numeric. -/
def c2bin : DataFrame :=
  ⟨["Gene_Symbol", "log2(FC)", "Padj"],
   [[.str "A", .num 2, .num 0], [.str "B", .num 0, .num 0], [.str "C", .num 1, .num 0]]⟩

/-- Loader output for `c2bin`. -/
def c2bout : DataFrame :=
  ⟨["Gene_Symbol", "log2(FC)", "Padj", "Regulation", "IsHub"],
   [[.str "A", .num 2, .num 0, .str "Up", .str "Unknown"],
    [.str "B", .num 0, .num 0, .str "Down", .str "Unknown"],
    [.str "C", .num 1, .num 0, .str "Down", .str "Unknown"]]⟩

/-- Input of the C4 witness (carries an `IsHub` column). -/
def c4in : DataFrame :=
  ⟨["Gene_Symbol", "log2(FC)", "Padj", "IsHub"],
   [[.str "A", .num 2, .num 0, .str "yes"],
    [.str "B", .num 0, .num 0, .str "no"]]⟩

/-- Loader output for `c4in` (also the re-load fixed point). -/
def c4out : DataFrame :=
  ⟨["Gene_Symbol", "log2(FC)", "Padj", "IsHub", "Regulation"],
   [[.str "A", .num 2, .num 0, .str "yes", .str "Up"],
    [.str "B", .num 0, .num 0, .str "no", .str "Down"]]⟩

instance (df : DataFrame) : IsTotal (List Cell) (rdesc df) :=
  ⟨fun a b => le_total (keyOf df b) (keyOf df a)⟩

instance (df : DataFrame) : IsTrans (List Cell) (rdesc df) :=
  ⟨fun _ _ _ hab hbc => le_trans hbc hab⟩

/-- Input of the C5 witness: six up-classified rows with a tie at key 3
(rows D1 and D2), so the cut keeps the earlier tied row. -/
def c5in : DataFrame :=
  ⟨["Gene_Symbol", "log2(FC)", "Padj"],
   [[.str "A", .num 2, .num 0],
    [.str "D1", .num 3, .num 0],
    [.str "L", .num 0, .num 0],
    [.str "B", .num 9, .num 0],
    [.str "D2", .num 3, .num 0],
    [.str "C", .num 7, .num 0],
    [.str "E", .num 5, .num 0]]⟩

/-- Loader output for `c5in`. -/
def c5out : DataFrame :=
  ⟨["Gene_Symbol", "log2(FC)", "Padj", "Regulation", "IsHub"],
   [[.str "A", .num 2, .num 0, .str "Up", .str "Unknown"],
    [.str "D1", .num 3, .num 0, .str "Up", .str "Unknown"],
    [.str "L", .num 0, .num 0, .str "Down", .str "Unknown"],
    [.str "B", .num 9, .num 0, .str "Up", .str "Unknown"],
    [.str "D2", .num 3, .num 0, .str "Up", .str "Unknown"],
    [.str "C", .num 7, .num 0, .str "Up", .str "Unknown"],
    [.str "E", .num 5, .num 0, .str "Up", .str "Unknown"]]⟩

/-- Input of the C6 witness: 14 rows carrying 12 distinct symbols (one NaN
row and one duplicate row among them). -/
def c6in : DataFrame :=
  ⟨["Gene_Symbol", "log2(FC)", "Padj"],
   [[.str "g0", .num 2, .num 0], [.str "g1", .num 2, .num 0],
    [.na, .num 2, .num 0], [.str "g2", .num 2, .num 0],
    [.str "g0", .num 2, .num 0], [.str "g3", .num 2, .num 0],
    [.str "g4", .num 2, .num 0], [.str "g5", .num 2, .num 0],
    [.str "g6", .num 2, .num 0], [.str "g7", .num 2, .num 0],
    [.str "g8", .num 2, .num 0], [.str "g9", .num 2, .num 0],
    [.str "g10", .num 2, .num 0], [.str "g11", .num 2, .num 0]]⟩

/-- The `Gene_Symbol` column of `c6in`. -/
def c6g : List Cell :=
  [.str "g0", .str "g1", .na, .str "g2", .str "g0", .str "g3", .str "g4",
   .str "g5", .str "g6", .str "g7", .str "g8", .str "g9", .str "g10", .str "g11"]

/-- The 10 identifiers the Annotation Client queries for `c6in`. -/
def c6reqs : List Cell :=
  [.str "g0", .str "g1", .str "g2", .str "g3", .str "g4", .str "g5",
   .str "g6", .str "g7", .str "g8", .str "g9"]

/-- Rows of a frame projected on a list of column labels. -/
def selRows (cols : List String) (rows : List (List Cell)) (cs : List String) :
    List (List Cell) :=
  rows.map (fun r => cs.map (fun c => cellAt cols c r))

/-- The report one render pass produces from the loaded table `df'` whose
`Gene_Symbol` column reads `g`, with the given service responses. -/
def reportOf (df' : DataFrame) (g : List Cell) (annot : Cell → AnnotResp)
    (addResp : Option (Option Nat))
    (enrResp : Nat → Option (Option (List (List Cell)))) : Report :=
  { upCount := (upGenes df').rows.length
    downCount := (downGenes df').rows.length
    hubCount := (hubGenes df').rows.length
    topUpTable := selRows df'.cols (topUpRows df') ["Gene_Symbol", "log2(FC)", "Padj"]
    topDownTable := selRows df'.cols (topDownRows df') ["Gene_Symbol", "log2(FC)", "Padj"]
    chart := ((upGenes df').rows.length, (downGenes df').rows.length)
    annots := ((dedupFirst (g.filter (fun c => !c.isNa))).take 10).map
      (fun c => annotMsg c (annot c))
    enrichMsgs := enrichSection addResp enrResp
    exportDf := df' }

/-- A fixed annotation oracle for witnesses: every lookup gets a non-200. -/
def noAnnot : Cell → AnnotResp := fun _ => .httpFail

/-- A fixed enrichment-query oracle for witnesses: the GET raises. -/
def noEnr : Nat → Option (Option (List (List Cell))) := fun _ => none

/-- Input of the C7 and C8 witnesses. -/
def c7in : DataFrame :=
  ⟨["Gene_Symbol", "log2(FC)", "Padj"], [[.str "A", .num 2, .num 0]]⟩

/-- A submit response carrying list id 1. -/
def c7a1 : Option (Option Nat) := some (some 1)

/-- A query response with an empty term array. -/
def c7e1 : Nat → Option (Option (List (List Cell))) := fun _ => some (some [])

/-- The report of a pass over `c7in` whose enrichment query comes back empty. -/
def c7rep : Report :=
  { upCount := 1
    downCount := 0
    hubCount := 0
    topUpTable := [[.str "A", .num 2, .num 0]]
    topDownTable := []
    chart := (1, 0)
    annots := [.requestFailed (.str "A")]
    enrichMsgs := [.infoMsg]
    exportDf := ⟨["Gene_Symbol", "log2(FC)", "Padj", "Regulation", "IsHub"],
      [[.str "A", .num 2, .num 0, .str "Up", .str "Unknown"]]⟩ }


/-! ## Theorems -/


theorem getD_set_self {α : Type _} (l : List α) (i : Nat) (v d : α) (h : i < l.length) :
    (l.set i v).getD i d = v := by
  induction l generalizing i with
  | nil => simp at h
  | cons a t ih =>
    cases i with
    | zero => rfl
    | succ n => exact ih n (Nat.lt_of_succ_lt_succ h)

theorem getD_set_ne {α : Type _} (l : List α) (i j : Nat) (v d : α) (h : i ≠ j) :
    (l.set i v).getD j d = l.getD j d := by
  induction l generalizing i j with
  | nil => rfl
  | cons a t ih =>
    cases i with
    | zero =>
      cases j with
      | zero => exact absurd rfl h
      | succ m => rfl
    | succ n =>
      cases j with
      | zero => rfl
      | succ m => exact ih n m (fun e => h (by rw [e]))

theorem getD_concat_self {α : Type _} (l : List α) (v d : α) :
    (l ++ [v]).getD l.length d = v := by
  induction l with
  | nil => rfl
  | cons a t ih => exact ih

theorem getD_map_of_lt {α β : Type _} (f : α → β) (l : List α) (n : Nat) (d : β) (d' : α)
    (h : n < l.length) : (l.map f).getD n d = f (l.getD n d') := by
  induction l generalizing n with
  | nil => simp at h
  | cons a t ih =>
    cases n with
    | zero => rfl
    | succ m => exact ih m (Nat.lt_of_succ_lt_succ h)

theorem zipWith_set_getD (j : Nat) (rows : List (List Cell)) (vals : List Cell)
    (hlen : vals.length = rows.length) (hj : ∀ r ∈ rows, j < r.length) :
    (List.zipWith (fun r v => r.set j v) rows vals).map (fun r => r.getD j Cell.na) = vals := by
  induction rows generalizing vals with
  | nil => cases vals with
    | nil => rfl
    | cons v vs => simp at hlen
  | cons r rs ih =>
    cases vals with
    | nil => simp at hlen
    | cons v vs =>
      simp only [List.zipWith, List.map]
      rw [getD_set_self r j v Cell.na (hj r (by simp))]
      rw [ih vs (by simpa using hlen) (fun r' hr' => hj r' (by simp [hr']))]

theorem zipWith_set_getD_ne (j j' : Nat) (hne : j ≠ j') (rows : List (List Cell))
    (vals : List Cell) (hlen : vals.length = rows.length) :
    (List.zipWith (fun r v => r.set j v) rows vals).map (fun r => r.getD j' Cell.na) =
      rows.map (fun r => r.getD j' Cell.na) := by
  induction rows generalizing vals with
  | nil => rfl
  | cons r rs ih =>
    cases vals with
    | nil => simp at hlen
    | cons v vs =>
      simp only [List.zipWith, List.map]
      rw [getD_set_ne r j j' v Cell.na hne, ih vs (by simpa using hlen)]

theorem zipWith_concat_getD (j' : Nat) (rows : List (List Cell)) (vals : List Cell)
    (hlen : vals.length = rows.length) (hj : ∀ r ∈ rows, j' < r.length) :
    (List.zipWith (fun r v => r ++ [v]) rows vals).map (fun r => r.getD j' Cell.na) =
      rows.map (fun r => r.getD j' Cell.na) := by
  induction rows generalizing vals with
  | nil => rfl
  | cons r rs ih =>
    cases vals with
    | nil => simp at hlen
    | cons v vs =>
      simp only [List.zipWith, List.map]
      rw [List.getD_append _ _ _ _ (hj r (by simp)),
        ih vs (by simpa using hlen) (fun r' hr' => hj r' (by simp [hr']))]

theorem zipWith_concat_getD_self (rows : List (List Cell)) (vals : List Cell) (n : Nat)
    (hlen : vals.length = rows.length) (hn : ∀ r ∈ rows, r.length = n) :
    (List.zipWith (fun r v => r ++ [v]) rows vals).map (fun r => r.getD n Cell.na) = vals := by
  induction rows generalizing vals with
  | nil => cases vals with
    | nil => rfl
    | cons v vs => simp at hlen
  | cons r rs ih =>
    cases vals with
    | nil => simp at hlen
    | cons v vs =>
      simp only [List.zipWith, List.map]
      have h1 : (r ++ [v]).getD n Cell.na = v := by
        rw [← hn r (by simp)]
        exact getD_concat_self r v Cell.na
      rw [h1, ih vs (by simpa using hlen) (fun r' hr' => hn r' (by simp [hr']))]

theorem length_zipWith_of_eq {α β γ : Type _} (f : α → β → γ) (l₁ : List α) (l₂ : List β)
    (h : l₂.length = l₁.length) : (List.zipWith f l₁ l₂).length = l₁.length := by
  rw [List.length_zipWith, h, Nat.min_self]

theorem mem_zipWith_set_length (j : Nat) (rows : List (List Cell)) (vals : List Cell) (n : Nat)
    (hn : ∀ r ∈ rows, r.length = n) :
    ∀ r' ∈ List.zipWith (fun r v => r.set j v) rows vals, r'.length = n := by
  induction rows generalizing vals with
  | nil => simp
  | cons r rs ih =>
    cases vals with
    | nil => simp
    | cons v vs =>
      intro r' hr'
      simp only [List.zipWith] at hr'
      rcases List.mem_cons.mp hr' with h | h
      · subst h
        simp only [List.length_set]
        exact hn r (by simp)
      · exact ih vs (fun a ha => hn a (by simp [ha])) r' h

theorem mem_zipWith_concat_length (rows : List (List Cell)) (vals : List Cell) (n : Nat)
    (hn : ∀ r ∈ rows, r.length = n) :
    ∀ r' ∈ List.zipWith (fun r v => r ++ [v]) rows vals, r'.length = n + 1 := by
  induction rows generalizing vals with
  | nil => simp
  | cons r rs ih =>
    cases vals with
    | nil => simp
    | cons v vs =>
      intro r' hr'
      simp only [List.zipWith] at hr'
      rcases List.mem_cons.mp hr' with h | h
      · subst h
        simp [hn r (by simp)]
      · exact ih vs (fun a ha => hn a (by simp [ha])) r' h

theorem colIdx?_eq_none_iff (cs : List String) (c : String) :
    colIdx? cs c = none ↔ c ∉ cs := by
  induction cs with
  | nil => simp [colIdx?]
  | cons a t ih =>
    by_cases h : a = c
    · simp [colIdx?, h]
    · rw [List.mem_cons, not_or]
      simp only [colIdx?, if_neg h, Option.map_eq_none']
      rw [ih]
      constructor
      · intro hn
        exact ⟨fun e => h e.symm, hn⟩
      · intro hn
        exact hn.2

theorem colIdx?_isSome_of_mem {cs : List String} {c : String} (h : c ∈ cs) :
    ∃ i, colIdx? cs c = some i := by
  cases hc : colIdx? cs c with
  | none => exact absurd h ((colIdx?_eq_none_iff cs c).mp hc)
  | some i => exact ⟨i, rfl⟩

theorem colIdx?_lt {cs : List String} {c : String} {i : Nat} (h : colIdx? cs c = some i) :
    i < cs.length := by
  induction cs generalizing i with
  | nil => simp [colIdx?] at h
  | cons a t ih =>
    by_cases ha : a = c
    · rw [colIdx?, if_pos ha] at h
      cases h
      simp
    · rw [colIdx?, if_neg ha, Option.map_eq_some'] at h
      rcases h with ⟨m, hm, hi⟩
      rw [← hi, List.length_cons]
      exact Nat.succ_lt_succ (ih hm)

theorem colIdx?_getD {cs : List String} {c : String} {i : Nat} (h : colIdx? cs c = some i) :
    cs.getD i "" = c := by
  induction cs generalizing i with
  | nil => simp [colIdx?] at h
  | cons a t ih =>
    by_cases ha : a = c
    · rw [colIdx?, if_pos ha] at h
      cases h
      exact ha
    · rw [colIdx?, if_neg ha, Option.map_eq_some'] at h
      rcases h with ⟨m, hm, hi⟩
      rw [← hi]
      exact ih hm

theorem colIdx?_ne_of_name_ne {cs : List String} {c₁ c₂ : String} {i j : Nat}
    (h₁ : colIdx? cs c₁ = some i) (h₂ : colIdx? cs c₂ = some j) (hne : c₁ ≠ c₂) : i ≠ j := by
  intro e
  apply hne
  rw [← colIdx?_getD h₁, ← colIdx?_getD h₂, e]

theorem colIdx?_append_of_mem {cs : List String} {c : String} (ds : List String) (h : c ∈ cs) :
    colIdx? (cs ++ ds) c = colIdx? cs c := by
  induction cs with
  | nil => simp at h
  | cons a t ih =>
    by_cases ha : a = c
    · simp [colIdx?, ha]
    · have ht : c ∈ t := by
        rcases List.mem_cons.mp h with h1 | h1
        · exact absurd h1.symm ha
        · exact h1
      show colIdx? (a :: (t ++ ds)) c = colIdx? (a :: t) c
      rw [colIdx?, if_neg ha, ih ht, colIdx?, if_neg ha]

theorem colIdx?_concat_self {cs : List String} {c : String} (h : c ∉ cs) :
    colIdx? (cs ++ [c]) c = some cs.length := by
  induction cs with
  | nil => simp [colIdx?]
  | cons a t ih =>
    have ha : a ≠ c := fun e => h (by simp [e])
    have ht : c ∉ t := fun hc => h (by simp [hc])
    show colIdx? (a :: (t ++ [c])) c = some (t.length + 1)
    rw [colIdx?, if_neg ha, ih ht]
    rfl

theorem wfB_iff (df : DataFrame) :
    wfB df = true ↔ ∀ r ∈ df.rows, r.length = df.cols.length := by
  simp [wfB, List.all_eq_true]

theorem colIdx?_mem {cs : List String} {c : String} {i : Nat} (h : colIdx? cs c = some i) :
    c ∈ cs := by
  by_contra hnm
  rw [(colIdx?_eq_none_iff cs c).mpr hnm] at h
  cases h

theorem setColumn_rows_length {df : DataFrame} {c : String} {vals : List Cell}
    (h : vals.length = df.rows.length) :
    (setColumn df c vals).rows.length = df.rows.length := by
  cases hc : colIdx? df.cols c with
  | none =>
    simp only [setColumn, hc]
    exact length_zipWith_of_eq _ df.rows vals h
  | some j =>
    simp only [setColumn, hc]
    exact length_zipWith_of_eq _ df.rows vals h

theorem wfB_setColumn {df : DataFrame} {c : String} {vals : List Cell}
    (hwf : wfB df = true) :
    wfB (setColumn df c vals) = true := by
  rw [wfB_iff] at hwf ⊢
  cases hc : colIdx? df.cols c with
  | some j =>
    simp only [setColumn, hc]
    intro r' hr'
    exact mem_zipWith_set_length j df.rows vals df.cols.length hwf r' hr'
  | none =>
    simp only [setColumn, hc]
    intro r' hr'
    have hl := mem_zipWith_concat_length df.rows vals df.cols.length hwf r' hr'
    simp [hl]

theorem getCol_setColumn_self {df : DataFrame} {c : String} {vals : List Cell}
    (hwf : wfB df = true) (hlen : vals.length = df.rows.length) :
    getCol (setColumn df c vals) c = .ok vals := by
  rw [wfB_iff] at hwf
  cases hc : colIdx? df.cols c with
  | some j =>
    have hj : ∀ r ∈ df.rows, j < r.length := fun r hr => by
      rw [hwf r hr]
      exact colIdx?_lt hc
    simp only [setColumn, hc, getCol]
    rw [zipWith_set_getD j df.rows vals hlen hj]
  | none =>
    have hnm : c ∉ df.cols := (colIdx?_eq_none_iff _ _).mp hc
    simp only [setColumn, hc, getCol]
    rw [colIdx?_concat_self hnm]
    exact congrArg Except.ok (zipWith_concat_getD_self df.rows vals df.cols.length hlen hwf)

theorem getCol_setColumn_other {df : DataFrame} {c c' : String} {vals : List Cell}
    (hwf : wfB df = true) (hlen : vals.length = df.rows.length) (hne : c' ≠ c) :
    getCol (setColumn df c vals) c' = getCol df c' := by
  rw [wfB_iff] at hwf
  cases hc : colIdx? df.cols c with
  | some j =>
    simp only [setColumn, hc, getCol]
    cases hc' : colIdx? df.cols c' with
    | none => rfl
    | some j' =>
      have hjj : j ≠ j' := colIdx?_ne_of_name_ne hc hc' (fun e => hne e.symm)
      exact congrArg Except.ok (zipWith_set_getD_ne j j' hjj df.rows vals hlen)
  | none =>
    simp only [setColumn, hc, getCol]
    cases hc' : colIdx? df.cols c' with
    | none =>
      have hnm' : c' ∉ df.cols := (colIdx?_eq_none_iff _ _).mp hc'
      have h2 : colIdx? (df.cols ++ [c]) c' = none := by
        rw [colIdx?_eq_none_iff]
        simp only [List.mem_append, List.mem_singleton]
        exact fun hor => hor.elim hnm' hne
      rw [h2]
    | some j' =>
      have hmem : c' ∈ df.cols := colIdx?_mem hc'
      rw [colIdx?_append_of_mem [c] hmem, hc']
      have hj' : ∀ r ∈ df.rows, j' < r.length := fun r hr => by
        rw [hwf r hr]
        exact colIdx?_lt hc'
      exact congrArg Except.ok (zipWith_concat_getD j' df.rows vals hlen hj')

theorem bind_ok_iff {ε α β : Type _} (x : Except ε α) (f : α → Except ε β) (b : β) :
    (x >>= f) = .ok b ↔ ∃ a, x = .ok a ∧ f a = .ok b := by
  cases x with
  | error e =>
    constructor
    · intro h
      cases h
    · rintro ⟨a, ha, _⟩
      cases ha
  | ok a =>
    constructor
    · intro h
      exact ⟨a, rfl, h⟩
    · rintro ⟨a', ha, hf⟩
      cases ha
      exact hf

theorem bind_error_of_error {ε α β : Type _} (x : Except ε α) (f : α → Except ε β) (e : ε)
    (h : x = .error e) : (x >>= f) = .error e := by
  cases h
  rfl

/-- The cols of a column write, by whether the label already exists. -/
theorem setColumn_cols (df : DataFrame) (c : String) (vals : List Cell) :
    (setColumn df c vals).cols = if c ∈ df.cols then df.cols else df.cols ++ [c] := by
  cases hc : colIdx? df.cols c with
  | some j =>
    simp only [setColumn, hc]
    rw [if_pos (colIdx?_mem hc)]
  | none =>
    simp only [setColumn, hc]
    rw [if_neg ((colIdx?_eq_none_iff _ _).mp hc)]

theorem setColumn_mem_cols {df : DataFrame} {c' : String} (c : String) (vals : List Cell)
    (h : c' ∈ df.cols) : c' ∈ (setColumn df c vals).cols := by
  rw [setColumn_cols]
  by_cases hm : c ∈ df.cols
  · rwa [if_pos hm]
  · rw [if_neg hm]
    exact List.mem_append_left _ h

theorem setColumn_not_mem_cols {df : DataFrame} {c' : String} (c : String) (vals : List Cell)
    (h : c' ∉ df.cols) (hne : c' ≠ c) : c' ∉ (setColumn df c vals).cols := by
  rw [setColumn_cols]
  by_cases hm : c ∈ df.cols
  · rwa [if_pos hm]
  · rw [if_neg hm]
    simp only [List.mem_append, List.mem_singleton]
    exact fun hor => hor.elim h hne

/-- A successful load means: the stream parsed, was rectangular, had a
`log2(FC)` column free of string cells, and the result is the augmentation. -/
theorem loadTable_decomp {df df' : DataFrame} (h : loadTable (some df) = .ok df') :
    wfB df = true ∧
    ∃ i, colIdx? df.cols "log2(FC)" = some i ∧
      df.rows.any (fun r => (r.getD i Cell.na).isStr) = false ∧
      df' = augmentedOf df i := by
  unfold loadTable at h
  rw [bind_ok_iff] at h
  obtain ⟨a, ha, haug⟩ := h
  by_cases hw : wfB df
  · simp only [parseStream, if_pos hw] at ha
    cases ha
    refine ⟨hw, ?_⟩
    cases hci : colIdx? df.cols "log2(FC)" with
    | none => simp [augment, hci] at haug
    | some i =>
      by_cases hstr : df.rows.any (fun r => (r.getD i Cell.na).isStr)
      · exfalso
        simp only [augment, hci] at haug
        rw [if_pos hstr] at haug
        cases haug
      · refine ⟨i, rfl, by simpa using hstr, ?_⟩
        simp only [augment, hci] at haug
        rw [if_neg hstr] at haug
        simp only [augmentedOf]
        exact (Except.ok.inj haug).symm
  · simp [parseStream, hw] at ha

theorem augmentedOf_rows_length (df : DataFrame) (i : Nat) :
    (augmentedOf df i).rows.length = df.rows.length := by
  unfold augmentedOf
  have h1 : (setColumn df "Regulation"
      (df.rows.map (fun r => regulationCell (r.getD i Cell.na)))).rows.length =
      df.rows.length :=
    setColumn_rows_length (by rw [List.length_map])
  by_cases hm : "IsHub" ∈ (setColumn df "Regulation"
      (df.rows.map (fun r => regulationCell (r.getD i Cell.na)))).cols
  · rw [if_pos hm]
    exact h1
  · rw [if_neg hm]
    rw [setColumn_rows_length (by rw [List.length_replicate])]
    exact h1

theorem augmentedOf_wf (df : DataFrame) (i : Nat) (hwf : wfB df = true) :
    wfB (augmentedOf df i) = true := by
  unfold augmentedOf
  have h1 := @wfB_setColumn df "Regulation"
    (df.rows.map (fun r => regulationCell (r.getD i Cell.na))) hwf
  by_cases hm : "IsHub" ∈ (setColumn df "Regulation"
      (df.rows.map (fun r => regulationCell (r.getD i Cell.na)))).cols
  · rw [if_pos hm]
    exact h1
  · rw [if_neg hm]
    exact wfB_setColumn h1

theorem augmentedOf_getCol_other (df : DataFrame) (i : Nat) (hwf : wfB df = true)
    (c : String) (h1 : c ≠ "Regulation") (h2 : c ≠ "IsHub") :
    getCol (augmentedOf df i) c = getCol df c := by
  unfold augmentedOf
  have hlen1 : (df.rows.map (fun r => regulationCell (r.getD i Cell.na))).length =
      df.rows.length := by rw [List.length_map]
  have hS : getCol (setColumn df "Regulation"
      (df.rows.map (fun r => regulationCell (r.getD i Cell.na)))) c = getCol df c :=
    getCol_setColumn_other hwf hlen1 h1
  by_cases hm : "IsHub" ∈ (setColumn df "Regulation"
      (df.rows.map (fun r => regulationCell (r.getD i Cell.na)))).cols
  · rw [if_pos hm]
    exact hS
  · rw [if_neg hm]
    rw [getCol_setColumn_other (wfB_setColumn hwf) (by rw [List.length_replicate]) h2]
    exact hS

theorem augmentedOf_getCol_reg (df : DataFrame) (i : Nat) (hwf : wfB df = true) :
    getCol (augmentedOf df i) "Regulation" =
      .ok (df.rows.map (fun r => regulationCell (r.getD i Cell.na))) := by
  unfold augmentedOf
  have hlen1 : (df.rows.map (fun r => regulationCell (r.getD i Cell.na))).length =
      df.rows.length := by rw [List.length_map]
  have hS : getCol (setColumn df "Regulation"
      (df.rows.map (fun r => regulationCell (r.getD i Cell.na)))) "Regulation" =
      .ok (df.rows.map (fun r => regulationCell (r.getD i Cell.na))) :=
    getCol_setColumn_self hwf hlen1
  by_cases hm : "IsHub" ∈ (setColumn df "Regulation"
      (df.rows.map (fun r => regulationCell (r.getD i Cell.na)))).cols
  · rw [if_pos hm]
    exact hS
  · rw [if_neg hm]
    rw [getCol_setColumn_other (wfB_setColumn hwf) (by rw [List.length_replicate])
      (by decide)]
    exact hS

theorem augmentedOf_getCol_ishub_present (df : DataFrame) (i : Nat) (hwf : wfB df = true)
    (hm : "IsHub" ∈ df.cols) :
    getCol (augmentedOf df i) "IsHub" = getCol df "IsHub" := by
  unfold augmentedOf
  have hlen1 : (df.rows.map (fun r => regulationCell (r.getD i Cell.na))).length =
      df.rows.length := by rw [List.length_map]
  have hm' : "IsHub" ∈ (setColumn df "Regulation"
      (df.rows.map (fun r => regulationCell (r.getD i Cell.na)))).cols :=
    setColumn_mem_cols _ _ hm
  rw [if_pos hm']
  exact getCol_setColumn_other hwf hlen1 (by decide)

theorem augmentedOf_getCol_ishub_absent (df : DataFrame) (i : Nat) (hwf : wfB df = true)
    (hm : "IsHub" ∉ df.cols) :
    getCol (augmentedOf df i) "IsHub" =
      .ok (List.replicate df.rows.length (Cell.str "Unknown")) := by
  unfold augmentedOf
  have hlen1 : (df.rows.map (fun r => regulationCell (r.getD i Cell.na))).length =
      df.rows.length := by rw [List.length_map]
  have hm' : "IsHub" ∉ (setColumn df "Regulation"
      (df.rows.map (fun r => regulationCell (r.getD i Cell.na)))).cols :=
    setColumn_not_mem_cols _ _ hm (by decide)
  rw [if_neg hm']
  rw [getCol_setColumn_self (wfB_setColumn hwf) (by rw [List.length_replicate])]
  rw [setColumn_rows_length (by rw [List.length_map])]

theorem augmentedOf_cols (df : DataFrame) (i : Nat) :
    (augmentedOf df i).cols =
      (if "Regulation" ∈ df.cols then df.cols else df.cols ++ ["Regulation"]) ++
        (if "IsHub" ∈ df.cols then [] else ["IsHub"]) := by
  unfold augmentedOf
  have hcols := setColumn_cols df "Regulation"
    (df.rows.map (fun r => regulationCell (r.getD i Cell.na)))
  have hmemIsHub : ("IsHub" ∈ (setColumn df "Regulation"
      (df.rows.map (fun r => regulationCell (r.getD i Cell.na)))).cols) ↔
      "IsHub" ∈ df.cols := by
    rw [hcols]
    by_cases hr : "Regulation" ∈ df.cols
    · rw [if_pos hr]
    · rw [if_neg hr]
      simp only [List.mem_append, List.mem_singleton]
      constructor
      · intro hor
        exact hor.elim id (fun e => absurd e (by decide))
      · exact fun h => Or.inl h
  by_cases hm : "IsHub" ∈ df.cols
  · rw [if_pos (hmemIsHub.mpr hm), hcols, if_pos hm, List.append_nil]
  · rw [if_neg (fun hx => hm (hmemIsHub.mp hx))]
    rw [setColumn_cols, hcols]
    have : "IsHub" ∉ (if "Regulation" ∈ df.cols then df.cols else df.cols ++ ["Regulation"]) := by
      by_cases hr : "Regulation" ∈ df.cols
      · rwa [if_pos hr]
      · rw [if_neg hr]
        simp only [List.mem_append, List.mem_singleton]
        exact fun hor => hor.elim hm (fun e => absurd e (by decide))
    rw [if_neg this, if_neg hm]

theorem loadTable_rows_length {df df' : DataFrame} (h : loadTable (some df) = .ok df') :
    df'.rows.length = df.rows.length := by
  obtain ⟨hwf, i, hci, hstr, hdf⟩ := loadTable_decomp h
  rw [hdf]
  exact augmentedOf_rows_length df i

theorem loadTable_wfB {df df' : DataFrame} (h : loadTable (some df) = .ok df') :
    wfB df' = true := by
  obtain ⟨hwf, i, hci, hstr, hdf⟩ := loadTable_decomp h
  rw [hdf]
  exact augmentedOf_wf df i hwf

theorem loadTable_getCol_other {df df' : DataFrame} (h : loadTable (some df) = .ok df')
    (c : String) (h1 : c ≠ "Regulation") (h2 : c ≠ "IsHub") :
    getCol df' c = getCol df c := by
  obtain ⟨hwf, i, hci, hstr, hdf⟩ := loadTable_decomp h
  rw [hdf]
  exact augmentedOf_getCol_other df i hwf c h1 h2

theorem getCol_ok_length {df : DataFrame} {c : String} {l : List Cell}
    (h : getCol df c = .ok l) : l.length = df.rows.length := by
  cases hc : colIdx? df.cols c with
  | none =>
    rw [getCol, hc] at h
    cases h
  | some i =>
    rw [getCol, hc] at h
    rw [← Except.ok.inj h, List.length_map]

theorem loadTable_getCol_reg {df df' : DataFrame} (h : loadTable (some df) = .ok df') :
    ∃ l, getCol df "log2(FC)" = .ok l ∧ getCol df' "log2(FC)" = .ok l ∧
      getCol df' "Regulation" = .ok (l.map regulationCell) ∧
      l.all (fun x => !x.isStr) = true := by
  obtain ⟨hwf, i, hci, hstr, hdf⟩ := loadTable_decomp h
  refine ⟨df.rows.map (fun r => r.getD i Cell.na), ?_, ?_, ?_, ?_⟩
  · rw [getCol, hci]
  · rw [hdf, augmentedOf_getCol_other df i hwf _ (by decide) (by decide), getCol, hci]
  · rw [hdf, augmentedOf_getCol_reg df i hwf, List.map_map]
    rfl
  · rw [List.all_eq_true]
    intro x hx
    rw [List.any_eq_false] at hstr
    obtain ⟨r, hr, hxe⟩ := List.mem_map.mp hx
    rw [← hxe]
    simpa using hstr r hr

theorem loadTable_getCol_ishub {df df' : DataFrame} (h : loadTable (some df) = .ok df') :
    ("IsHub" ∈ df.cols → getCol df' "IsHub" = getCol df "IsHub") ∧
      ("IsHub" ∉ df.cols →
        getCol df' "IsHub" = .ok (List.replicate df.rows.length (Cell.str "Unknown"))) := by
  obtain ⟨hwf, i, hci, hstr, hdf⟩ := loadTable_decomp h
  constructor
  · intro hm
    rw [hdf]
    exact augmentedOf_getCol_ishub_present df i hwf hm
  · intro hm
    rw [hdf]
    exact augmentedOf_getCol_ishub_absent df i hwf hm

theorem loadTable_cols {df df' : DataFrame} (h : loadTable (some df) = .ok df') :
    df'.cols =
      (if "Regulation" ∈ df.cols then df.cols else df.cols ++ ["Regulation"]) ++
        (if "IsHub" ∈ df.cols then [] else ["IsHub"]) := by
  obtain ⟨hwf, i, hci, hstr, hdf⟩ := loadTable_decomp h
  rw [hdf]
  exact augmentedOf_cols df i

theorem loadTable_mem_cols {df df' : DataFrame} (h : loadTable (some df) = .ok df') :
    (∀ c ∈ df.cols, c ∈ df'.cols) ∧ "Regulation" ∈ df'.cols ∧ "IsHub" ∈ df'.cols := by
  rw [loadTable_cols h]
  refine ⟨?_, ?_, ?_⟩
  · intro c hc
    apply List.mem_append_left
    by_cases hr : "Regulation" ∈ df.cols
    · rwa [if_pos hr]
    · rw [if_neg hr]
      exact List.mem_append_left _ hc
  · apply List.mem_append_left
    by_cases hr : "Regulation" ∈ df.cols
    · rwa [if_pos hr]
    · rw [if_neg hr]
      exact List.mem_append_right _ (by simp)
  · by_cases hm : "IsHub" ∈ df.cols
    · apply List.mem_append_left
      by_cases hr : "Regulation" ∈ df.cols
      · rwa [if_pos hr]
      · rw [if_neg hr]
        exact List.mem_append_left _ hm
    · apply List.mem_append_right
      rw [if_neg hm]
      simp

theorem mem_pos_getD {l : List (List Cell)} {r : List Cell} (hr : r ∈ l) :
    ∃ n, n < l.length ∧ l.getD n [] = r := by
  induction l with
  | nil => simp at hr
  | cons a t ih =>
    rcases List.mem_cons.mp hr with h | h
    · exact ⟨0, by simp, h.symm⟩
    · obtain ⟨n, hn, hg⟩ := ih h
      exact ⟨n + 1, by simpa using Nat.succ_lt_succ hn, hg⟩

theorem cellAt_of_getCol {df : DataFrame} {c : String} {l : List Cell}
    (h : getCol df c = .ok l) (n : Nat) (hn : n < df.rows.length) :
    cellAt df.cols c (df.rows.getD n []) = l.getD n Cell.na := by
  cases hc : colIdx? df.cols c with
  | none =>
    rw [getCol, hc] at h
    cases h
  | some i =>
    rw [getCol, hc] at h
    rw [cellAt, hc, ← Except.ok.inj h]
    exact (getD_map_of_lt (fun r => r.getD i Cell.na) df.rows n Cell.na [] hn).symm

theorem cellAt_mem_of_getCol {df : DataFrame} {c : String} {l : List Cell}
    (h : getCol df c = .ok l) {r : List Cell} (hr : r ∈ df.rows) :
    cellAt df.cols c r ∈ l := by
  cases hc : colIdx? df.cols c with
  | none =>
    rw [getCol, hc] at h
    cases h
  | some i =>
    rw [getCol, hc] at h
    rw [cellAt, hc, ← Except.ok.inj h]
    exact List.mem_map_of_mem _ hr

/-- Row-wise form of the `Regulation` derivation: in a loaded table, every
row's `Regulation` cell is the lambda of line 18 applied to that row's
`log2(FC)` cell. -/
theorem loadTable_row_reg {df df' : DataFrame} (h : loadTable (some df) = .ok df') :
    ∀ r ∈ df'.rows,
      cellAt df'.cols "Regulation" r = regulationCell (cellAt df'.cols "log2(FC)" r) := by
  intro r hr
  obtain ⟨l, hfc, hfc', hreg, hnostr⟩ := loadTable_getCol_reg h
  obtain ⟨n, hn, hgetd⟩ := mem_pos_getD hr
  have e1 := cellAt_of_getCol hreg n hn
  have e2 := cellAt_of_getCol hfc' n hn
  rw [hgetd] at e1 e2
  rw [e1, e2]
  have hn' : n < l.length := by
    rw [getCol_ok_length hfc, ← loadTable_rows_length h]
    exact hn
  exact getD_map_of_lt regulationCell l n Cell.na Cell.na hn'

/-- C1: for every row of the loaded table, the derived `Regulation` column is
"Up" exactly when the row's `log2(FC)` value is a number strictly greater
than 1, and is "Down" otherwise. -/
theorem regulation_up_iff_gt_one (df df' : DataFrame) (h : loadTable (some df) = .ok df')
    (r : List Cell) (hr : r ∈ df'.rows) :
    (cellAt df'.cols "Regulation" r = .str "Up" ↔
      ∃ q : ℚ, cellAt df'.cols "log2(FC)" r = .num q ∧ 1 < q) ∧
    ((¬ ∃ q : ℚ, cellAt df'.cols "log2(FC)" r = .num q ∧ 1 < q) →
      cellAt df'.cols "Regulation" r = .str "Down") := by
  have hrow := loadTable_row_reg h r hr
  cases hfc : cellAt df'.cols "log2(FC)" r with
  | num x =>
    rw [hfc] at hrow
    rw [hrow]
    by_cases hx : 1 < x
    · simp [regulationCell, cellGtOne, hx]
    · simp [regulationCell, cellGtOne, hx]
  | str s =>
    exfalso
    obtain ⟨l, hfcl, hfc', hreg, hnostr⟩ := loadTable_getCol_reg h
    have hmem := cellAt_mem_of_getCol hfc' hr
    rw [hfc] at hmem
    rw [List.all_eq_true] at hnostr
    have := hnostr _ hmem
    simp [Cell.isStr] at this
  | na =>
    rw [hfc] at hrow
    rw [hrow]
    constructor
    · constructor
      · intro he
        simp [regulationCell, cellGtOne] at he
      · rintro ⟨q, hq, _⟩
        cases hq
    · intro _
      simp [regulationCell, cellGtOne]

/-- Witness for C1 at the spec's example rows: TP53 with log2(FC) = 2.3 is
classified "Up" and BRCA1 with log2(FC) = -1.5 is classified "Down". -/
theorem regulation_up_iff_gt_one_witness :
    ((cellAt c1out.cols "Regulation" c1row0 = .str "Up" ↔
        ∃ q : ℚ, cellAt c1out.cols "log2(FC)" c1row0 = .num q ∧ 1 < q) ∧
      ((¬ ∃ q : ℚ, cellAt c1out.cols "log2(FC)" c1row0 = .num q ∧ 1 < q) →
        cellAt c1out.cols "Regulation" c1row0 = .str "Down")) ∧
    ((cellAt c1out.cols "Regulation" c1row1 = .str "Up" ↔
        ∃ q : ℚ, cellAt c1out.cols "log2(FC)" c1row1 = .num q ∧ 1 < q) ∧
      ((¬ ∃ q : ℚ, cellAt c1out.cols "log2(FC)" c1row1 = .num q ∧ 1 < q) →
        cellAt c1out.cols "Regulation" c1row1 = .str "Down")) ∧
    cellAt c1out.cols "Regulation" c1row0 = .str "Up" ∧
    cellAt c1out.cols "Regulation" c1row1 = .str "Down" :=
  ⟨regulation_up_iff_gt_one c1in c1out (by decide) c1row0 (by decide),
   regulation_up_iff_gt_one c1in c1out (by decide) c1row1 (by decide),
   by decide, by decide⟩

/-- C9: loading a table whose header lacks `IsHub` yields a table where every
row's `IsHub` is the literal "Unknown", and the hub-gene count (rows whose
`IsHub` lower-cases to "yes") is 0. -/
theorem ishub_default_unknown (df df' : DataFrame) (h : loadTable (some df) = .ok df')
    (hno : "IsHub" ∉ df.cols) :
    getCol df' "IsHub" = .ok (List.replicate df.rows.length (Cell.str "Unknown")) ∧
    (∀ r ∈ df'.rows, cellAt df'.cols "IsHub" r = .str "Unknown") ∧
    (hubGenes df').rows.length = 0 := by
  have hcol := (loadTable_getCol_ishub h).2 hno
  refine ⟨hcol, ?_, ?_⟩
  · intro r hr
    exact List.eq_of_mem_replicate (cellAt_mem_of_getCol hcol hr)
  · simp only [hubGenes]
    rw [List.length_eq_zero, List.filter_eq_nil_iff]
    intro r hr
    have hu : cellAt df'.cols "IsHub" r = .str "Unknown" :=
      List.eq_of_mem_replicate (cellAt_mem_of_getCol hcol hr)
    rw [hu]
    decide

/-- Witness for C9 at a concrete IsHub-free table. -/
theorem ishub_default_unknown_witness :
    getCol c9out "IsHub" = .ok (List.replicate c9in.rows.length (Cell.str "Unknown")) ∧
    (∀ r ∈ c9out.rows, cellAt c9out.cols "IsHub" r = .str "Unknown") ∧
    (hubGenes c9out).rows.length = 0 :=
  ishub_default_unknown c9in c9out (by decide) (by decide)

/-- C10: the loader's augmentation only overwrites `Regulation`
(unconditionally, even when the input already has that column) and adds
`IsHub` only when absent; every other column, the row order and the row
count are exactly as parsed. -/
theorem loader_frame_effect (df df' : DataFrame) (h : loadTable (some df) = .ok df') :
    df'.rows.length = df.rows.length ∧
    df'.cols = (if "Regulation" ∈ df.cols then df.cols else df.cols ++ ["Regulation"]) ++
      (if "IsHub" ∈ df.cols then [] else ["IsHub"]) ∧
    (∀ c, c ≠ "Regulation" → c ≠ "IsHub" → getCol df' c = getCol df c) ∧
    (∃ l, getCol df "log2(FC)" = .ok l ∧
      getCol df' "Regulation" = .ok (l.map regulationCell)) ∧
    ("IsHub" ∈ df.cols → getCol df' "IsHub" = getCol df "IsHub") := by
  refine ⟨loadTable_rows_length h, loadTable_cols h,
    fun c h1 h2 => loadTable_getCol_other h c h1 h2, ?_, (loadTable_getCol_ishub h).1⟩
  obtain ⟨l, h1, _, h3, _⟩ := loadTable_getCol_reg h
  exact ⟨l, h1, h3⟩

/-- Witness for C10 at a table with a pre-existing garbage `Regulation`. -/
theorem loader_frame_effect_witness :
    c10out.rows.length = c10in.rows.length ∧
    c10out.cols =
      (if "Regulation" ∈ c10in.cols then c10in.cols else c10in.cols ++ ["Regulation"]) ++
        (if "IsHub" ∈ c10in.cols then [] else ["IsHub"]) ∧
    (∀ c, c ≠ "Regulation" → c ≠ "IsHub" → getCol c10out c = getCol c10in c) ∧
    (∃ l, getCol c10in "log2(FC)" = .ok l ∧
      getCol c10out "Regulation" = .ok (l.map regulationCell)) ∧
    ("IsHub" ∈ c10in.cols → getCol c10out "IsHub" = getCol c10in "IsHub") :=
  loader_frame_effect c10in c10out (by decide)

theorem length_filter_add_length_filter_compl {α : Type _} (l : List α) (p q : α → Bool)
    (hpq : ∀ x ∈ l, q x = !p x) :
    (l.filter p).length + (l.filter q).length = l.length := by
  induction l with
  | nil => rfl
  | cons a t ih =>
    have ha := hpq a (by simp)
    have iht := ih (fun x hx => hpq x (by simp [hx]))
    cases hp : p a with
    | true =>
      simp [List.filter_cons, hp, ha]
      omega
    | false =>
      simp [List.filter_cons, hp, ha]
      omega

/-- C2 as stated is false: for the loaded table `c2out` the up-count plus the
down-count is 0, but the table has 1 row. -/
theorem countUp_add_countDown_counterexample :
    loadTable (some c2in) = .ok c2out ∧
    (upGenes c2out).rows.length + (downGenes c2out).rows.length ≠ c2out.rows.length := by
  decide

/-- C2 amended: when every row's `log2(FC)` value is an actual number (no
NaN), the up-count plus the down-count equals the total row count. -/
theorem countUp_add_countDown_eq_total (df df' : DataFrame)
    (h : loadTable (some df) = .ok df')
    (hnum : ∀ r ∈ df'.rows, (cellAt df'.cols "log2(FC)" r).isNum = true) :
    (upGenes df').rows.length + (downGenes df').rows.length = df'.rows.length := by
  simp only [upGenes, downGenes]
  apply length_filter_add_length_filter_compl
  intro r hr
  have hn := hnum r hr
  cases hfc : cellAt df'.cols "log2(FC)" r with
  | num x =>
    simp only [cellGtOne, cellLeOne]
    rw [← decide_not]
    exact decide_eq_decide.mpr not_lt.symm
  | str s =>
    rw [hfc] at hn
    simp [Cell.isNum] at hn
  | na =>
    rw [hfc] at hn
    simp [Cell.isNum] at hn

/-- Witness for the amended C2 at a concrete numeric table. -/
theorem countUp_add_countDown_eq_total_witness :
    (upGenes c2bout).rows.length + (downGenes c2bout).rows.length = c2bout.rows.length :=
  countUp_add_countDown_eq_total c2bin c2bout (by decide) (by decide)

/-- Forward direction of the loader: under the three load conditions the
loader succeeds and returns the augmentation. -/
theorem loadTable_ok_of (df : DataFrame) (hwf : wfB df = true) {i : Nat}
    (hci : colIdx? df.cols "log2(FC)" = some i)
    (hstr : df.rows.any (fun r => (r.getD i Cell.na).isStr) = false) :
    loadTable (some df) = .ok (augmentedOf df i) := by
  unfold loadTable
  rw [show parseStream (some df) = .ok df from by simp [parseStream, hwf]]
  show augment df = .ok (augmentedOf df i)
  simp only [augment, hci]
  rw [if_neg (by rw [hstr]; exact Bool.false_ne_true)]
  rfl

/-- C4: re-parsing the exported CSV with the Table Loader succeeds and gives
back a table with the same row count and, row for row, the same `Regulation`
and `IsHub` columns as the exported in-memory table. -/
theorem export_roundtrip (df df' : DataFrame) (h : loadTable (some df) = .ok df') :
    ∃ df'', loadTable (some (parseCsv (exportTable df'))) = .ok df'' ∧
      df''.rows.length = df'.rows.length ∧
      getCol df'' "Regulation" = getCol df' "Regulation" ∧
      getCol df'' "IsHub" = getCol df' "IsHub" := by
  have hpc : parseCsv (exportTable df') = df' := rfl
  rw [hpc]
  have hwf' : wfB df' = true := loadTable_wfB h
  obtain ⟨l, hfc, hfc', hreg, hnostr⟩ := loadTable_getCol_reg h
  have hfcmem : "log2(FC)" ∈ df'.cols := by
    cases hc : colIdx? df'.cols "log2(FC)" with
    | none =>
      rw [getCol, hc] at hfc'
      cases hfc'
    | some i' => exact colIdx?_mem hc
  obtain ⟨i', hci'⟩ := colIdx?_isSome_of_mem hfcmem
  have hlcol : df'.rows.map (fun r => r.getD i' Cell.na) = l := by
    rw [getCol, hci'] at hfc'
    exact Except.ok.inj hfc'
  have hstr' : df'.rows.any (fun r => (r.getD i' Cell.na).isStr) = false := by
    rw [List.any_eq_false]
    intro r hr
    have hmem : r.getD i' Cell.na ∈ l := by
      rw [← hlcol]
      exact List.mem_map_of_mem _ hr
    rw [List.all_eq_true] at hnostr
    have h2 := hnostr _ hmem
    simpa using h2
  have hload2 := loadTable_ok_of df' hwf' hci' hstr'
  refine ⟨augmentedOf df' i', hload2, augmentedOf_rows_length df' i', ?_, ?_⟩
  · rw [augmentedOf_getCol_reg df' i' hwf', hreg, ← hlcol, List.map_map]
    rfl
  · have hmem := (loadTable_mem_cols h).2.2
    rw [augmentedOf_getCol_ishub_present df' i' hwf' hmem]

/-- Witness for C4 at a concrete table. -/
theorem export_roundtrip_witness :
    ∃ df'', loadTable (some (parseCsv (exportTable c4out))) = .ok df'' ∧
      df''.rows.length = c4out.rows.length ∧
      getCol df'' "Regulation" = getCol c4out "Regulation" ∧
      getCol df'' "IsHub" = getCol c4out "IsHub" :=
  export_roundtrip c4in c4out (by decide)

/-- Inserting a row with `orderedInsert` places it in front of every row of
equal key, so the filter at any key value gains the new row at the front
exactly when it matches. -/
theorem filter_key_orderedInsert (df : DataFrame) (q : ℚ) (a : List Cell)
    (l : List (List Cell)) :
    (List.orderedInsert (rdesc df) a l).filter (fun x => keyOf df x == q) =
      if keyOf df a == q then a :: l.filter (fun x => keyOf df x == q)
      else l.filter (fun x => keyOf df x == q) := by
  induction l with
  | nil =>
    simp only [List.orderedInsert, List.filter_cons, List.filter_nil]
  | cons b t ih =>
    rw [List.orderedInsert]
    by_cases hle : rdesc df a b
    · rw [if_pos hle, List.filter_cons]
    · rw [if_neg hle]
      have hle' : ¬ keyOf df b ≤ keyOf df a := hle
      have hab : keyOf df a < keyOf df b := not_le.mp hle'
      by_cases ha : (keyOf df a == q) = true
      · by_cases hb : (keyOf df b == q) = true
        · exfalso
          rw [beq_iff_eq] at ha hb
          rw [ha, hb] at hab
          exact lt_irrefl q hab
        · simp [List.filter_cons, ha, hb, ih]
      · by_cases hb : (keyOf df b == q) = true
        · simp [List.filter_cons, ha, hb, ih]
        · simp [List.filter_cons, ha, hb, ih]

/-- Stability of the model of `nlargest`: sorting does not change the
subsequence of rows carrying any fixed key value. -/
theorem filter_key_insertionSort (df : DataFrame) (q : ℚ) (l : List (List Cell)) :
    (List.insertionSort (rdesc df) l).filter (fun x => keyOf df x == q) =
      l.filter (fun x => keyOf df x == q) := by
  induction l with
  | nil => rfl
  | cons a t ih =>
    rw [List.insertionSort, filter_key_orderedInsert, ih, List.filter_cons]

/-- C5: `topUp(5)` returns at most 5 rows, all classified "Up", sorted by
descending `log2(FC)`; rows of any tied key value are the first such rows of
`up_genes` in original order; and the rows of `up_genes` left out never have
a key exceeding a returned row's. -/
theorem topUp_spec (df df' : DataFrame) (h : loadTable (some df) = .ok df') :
    (topUpRows df').length ≤ 5 ∧
    (∀ r ∈ topUpRows df', cellAt df'.cols "Regulation" r = .str "Up") ∧
    List.Sorted (fun a b => keyOf df' b ≤ keyOf df' a) (topUpRows df') ∧
    (∀ q : ℚ, ∃ rest, (upGenes df').rows.filter (fun r => keyOf df' r == q) =
        (topUpRows df').filter (fun r => keyOf df' r == q) ++ rest) ∧
    (∃ rest, List.Perm (topUpRows df' ++ rest) (upGenes df').rows ∧
      ∀ a ∈ topUpRows df', ∀ b ∈ rest, keyOf df' b ≤ keyOf df' a) := by
  have hsorted : List.Sorted (rdesc df')
      (List.insertionSort (rdesc df') (upGenes df').rows) :=
    List.sorted_insertionSort (rdesc df') (upGenes df').rows
  refine ⟨List.length_take_le 5 _, ?_, ?_, ?_, ?_⟩
  · intro r hr
    have hr1 : r ∈ List.insertionSort (rdesc df') (upGenes df').rows :=
      List.mem_of_mem_take hr
    have hr2 : r ∈ (upGenes df').rows :=
      (List.perm_insertionSort (rdesc df') _).mem_iff.mp hr1
    have hr3 := List.mem_filter.mp hr2
    have hrow := loadTable_row_reg h r hr3.1
    rw [hrow]
    simp [regulationCell, hr3.2]
  · exact List.Pairwise.sublist (List.take_sublist 5 _) hsorted
  · intro q
    refine ⟨((List.insertionSort (rdesc df') (upGenes df').rows).drop 5).filter
      (fun r => keyOf df' r == q), ?_⟩
    conv_lhs =>
      rw [← filter_key_insertionSort df' q (upGenes df').rows,
        ← List.take_append_drop 5 (List.insertionSort (rdesc df') (upGenes df').rows),
        List.filter_append]
    rfl
  · refine ⟨(List.insertionSort (rdesc df') (upGenes df').rows).drop 5, ?_, ?_⟩
    · rw [show topUpRows df' ++ (List.insertionSort (rdesc df') (upGenes df').rows).drop 5 =
        List.insertionSort (rdesc df') (upGenes df').rows from List.take_append_drop 5 _]
      exact List.perm_insertionSort (rdesc df') _
    · have hp : List.Pairwise (rdesc df')
          (topUpRows df' ++ (List.insertionSort (rdesc df') (upGenes df').rows).drop 5) := by
        rw [show topUpRows df' ++ (List.insertionSort (rdesc df') (upGenes df').rows).drop 5 =
          List.insertionSort (rdesc df') (upGenes df').rows from List.take_append_drop 5 _]
        exact hsorted
      exact (List.pairwise_append.mp hp).2.2

/-- Witness for C5 at a concrete table with six up rows and a tie. -/
theorem topUp_spec_witness :
    ((topUpRows c5out).length ≤ 5 ∧
      (∀ r ∈ topUpRows c5out, cellAt c5out.cols "Regulation" r = .str "Up") ∧
      List.Sorted (fun a b => keyOf c5out b ≤ keyOf c5out a) (topUpRows c5out) ∧
      (∀ q : ℚ, ∃ rest, (upGenes c5out).rows.filter (fun r => keyOf c5out r == q) =
          (topUpRows c5out).filter (fun r => keyOf c5out r == q) ++ rest) ∧
      (∃ rest, List.Perm (topUpRows c5out ++ rest) (upGenes c5out).rows ∧
        ∀ a ∈ topUpRows c5out, ∀ b ∈ rest, keyOf c5out b ≤ keyOf c5out a)) ∧
    topUpRows c5out =
      [[.str "B", .num 9, .num 0, .str "Up", .str "Unknown"],
       [.str "C", .num 7, .num 0, .str "Up", .str "Unknown"],
       [.str "E", .num 5, .num 0, .str "Up", .str "Unknown"],
       [.str "D1", .num 3, .num 0, .str "Up", .str "Unknown"],
       [.str "D2", .num 3, .num 0, .str "Up", .str "Unknown"]] :=
  ⟨topUp_spec c5in c5out (by decide), by decide⟩

theorem dedupFirstAux_sublist (l : List Cell) :
    ∀ seen, List.Sublist (dedupFirstAux seen l) l := by
  induction l with
  | nil =>
    intro seen
    simp [dedupFirstAux]
  | cons c cs ih =>
    intro seen
    rw [dedupFirstAux]
    by_cases hc : c ∈ seen
    · rw [if_pos hc]
      exact List.Sublist.cons c (ih seen)
    · rw [if_neg hc]
      exact List.Sublist.cons₂ c (ih (c :: seen))

theorem mem_dedupFirstAux (l : List Cell) :
    ∀ seen x, x ∈ dedupFirstAux seen l → x ∉ seen := by
  induction l with
  | nil =>
    intro seen x hx
    simp [dedupFirstAux] at hx
  | cons c cs ih =>
    intro seen x hx
    rw [dedupFirstAux] at hx
    by_cases hc : c ∈ seen
    · rw [if_pos hc] at hx
      exact ih seen x hx
    · rw [if_neg hc] at hx
      rcases List.mem_cons.mp hx with h | h
      · subst h
        exact hc
      · intro hxseen
        exact ih (c :: seen) x h (by simp [hxseen])

theorem dedupFirstAux_nodup (l : List Cell) : ∀ seen, (dedupFirstAux seen l).Nodup := by
  induction l with
  | nil =>
    intro seen
    simp [dedupFirstAux]
  | cons c cs ih =>
    intro seen
    rw [dedupFirstAux]
    by_cases hc : c ∈ seen
    · rw [if_pos hc]
      exact ih seen
    · rw [if_neg hc]
      rw [List.nodup_cons]
      refine ⟨?_, ih (c :: seen)⟩
      intro hmem
      exact mem_dedupFirstAux cs (c :: seen) c hmem (by simp)

/-- C6: the Annotation Client's request list is exactly the first 10 distinct
non-null gene identifiers in table order — never more than 10, duplicate-free,
an order-preserving subsequence of the column, and exactly 10 whenever the
table has at least 10 distinct identifiers. -/
theorem annotation_first_ten (df : DataFrame) (g reqs : List Cell)
    (hg : getCol df "Gene_Symbol" = .ok g)
    (hr : annotRequests df = .ok reqs) :
    reqs = (dedupFirst (g.filter (fun c => !c.isNa))).take 10 ∧
    reqs.length ≤ 10 ∧
    reqs.length = min 10 (dedupFirst (g.filter (fun c => !c.isNa))).length ∧
    reqs.Nodup ∧
    List.Sublist reqs (g.filter (fun c => !c.isNa)) ∧
    (10 ≤ (dedupFirst (g.filter (fun c => !c.isNa))).length → reqs.length = 10) := by
  have hcomp : annotRequests df =
      .ok ((dedupFirst (g.filter (fun c => !c.isNa))).take 10) := by
    unfold annotRequests
    rw [hg]
    rfl
  have hreq : reqs = (dedupFirst (g.filter (fun c => !c.isNa))).take 10 :=
    (Except.ok.inj (hcomp.symm.trans hr)).symm
  subst hreq
  refine ⟨rfl, List.length_take_le 10 _, List.length_take 10 _, ?_, ?_, ?_⟩
  · exact List.Nodup.sublist (List.take_sublist 10 _) (dedupFirstAux_nodup _ [])
  · exact (List.take_sublist 10 _).trans (dedupFirstAux_sublist _ [])
  · intro h10
    rw [List.length_take]
    omega

/-- Witness for C6: a table with 12 distinct symbols issues exactly the
first 10 of them. -/
theorem annotation_first_ten_witness :
    c6reqs = (dedupFirst (c6g.filter (fun c => !c.isNa))).take 10 ∧
    c6reqs.length ≤ 10 ∧
    c6reqs.length = min 10 (dedupFirst (c6g.filter (fun c => !c.isNa))).length ∧
    c6reqs.Nodup ∧
    List.Sublist c6reqs (c6g.filter (fun c => !c.isNa)) ∧
    (10 ≤ (dedupFirst (c6g.filter (fun c => !c.isNa))).length → c6reqs.length = 10) :=
  annotation_first_ten c6in c6g c6reqs (by decide) (by decide)

theorem ok_bind {ε α β : Type _} (a : α) (f : α → Except ε β) :
    (Except.ok a >>= f) = f a :=
  rfl

theorem error_bind {ε α β : Type _} (e : ε) (f : α → Except ε β) :
    ((Except.error e : Except ε α) >>= f) = .error e :=
  rfl

theorem colIdxs_ok_of_mem (df : DataFrame) (cs : List String)
    (h : ∀ c ∈ cs, c ∈ df.cols) :
    colIdxs df cs = .ok (cs.map (fun c => (colIdx? df.cols c).getD 0)) := by
  induction cs with
  | nil => rfl
  | cons c cs ih =>
    obtain ⟨i, hi⟩ := colIdx?_isSome_of_mem (h c (by simp))
    rw [colIdxs, hi, ih (fun c' hc' => h c' (by simp [hc']))]
    simp [hi]

theorem colIdxs_error_of_missing (df : DataFrame) (cs : List String)
    (h : ∃ c ∈ cs, c ∉ df.cols) :
    ∃ e, colIdxs df cs = .error e := by
  induction cs with
  | nil => simp at h
  | cons c cs ih =>
    obtain ⟨c', hc', hmiss⟩ := h
    rcases List.mem_cons.mp hc' with he | he
    · subst he
      rw [colIdxs, (colIdx?_eq_none_iff _ _).mpr hmiss]
      exact ⟨.keyError c', rfl⟩
    · cases hci : colIdx? df.cols c with
      | none =>
        rw [colIdxs, hci]
        exact ⟨.keyError c, rfl⟩
      | some i =>
        obtain ⟨e, he2⟩ := ih ⟨c', he, hmiss⟩
        rw [colIdxs, hci, he2]
        exact ⟨e, rfl⟩

theorem selectCols_ok (df : DataFrame) (cs : List String)
    (h : ∀ c ∈ cs, c ∈ df.cols) :
    selectCols df cs = .ok (selRows df.cols df.rows cs) := by
  unfold selectCols
  rw [colIdxs_ok_of_mem df cs h]
  refine congrArg Except.ok ?_
  unfold selRows
  apply List.map_congr_left
  intro r _
  rw [List.map_map]
  apply List.map_congr_left
  intro c hc
  obtain ⟨i, hi⟩ := colIdx?_isSome_of_mem (h c hc)
  simp [Function.comp, cellAt, hi]

theorem selectCols_error_of_missing (df : DataFrame) (cs : List String)
    (h : ∃ c ∈ cs, c ∉ df.cols) :
    ∃ e, selectCols df cs = .error e := by
  obtain ⟨e, he⟩ := colIdxs_error_of_missing df cs h
  refine ⟨e, ?_⟩
  unfold selectCols
  rw [he]

/-- When the load succeeds and the three selected labels exist, one render
pass produces exactly `reportOf`. -/
theorem buildReport_ok {stream : Option DataFrame} {df' : DataFrame} {g : List Cell}
    (h : loadTable stream = .ok df') (hg : getCol df' "Gene_Symbol" = .ok g)
    (hgs : "Gene_Symbol" ∈ df'.cols) (hfc : "log2(FC)" ∈ df'.cols)
    (hp : "Padj" ∈ df'.cols) (annot : Cell → AnnotResp)
    (addResp : Option (Option Nat))
    (enrResp : Nat → Option (Option (List (List Cell)))) :
    buildReport stream annot addResp enrResp = .ok (reportOf df' g annot addResp enrResp) := by
  have hmem : ∀ c ∈ ["Gene_Symbol", "log2(FC)", "Padj"], c ∈ df'.cols := by
    intro c hc
    rcases (by simpa using hc : c = "Gene_Symbol" ∨ c = "log2(FC)" ∨ c = "Padj")
      with rfl | rfl | rfl
    · exact hgs
    · exact hfc
    · exact hp
  have hsel1 : selectCols ⟨df'.cols, topUpRows df'⟩ ["Gene_Symbol", "log2(FC)", "Padj"] =
      .ok (selRows df'.cols (topUpRows df') ["Gene_Symbol", "log2(FC)", "Padj"]) :=
    selectCols_ok ⟨df'.cols, topUpRows df'⟩ _ hmem
  have hsel2 : selectCols ⟨df'.cols, topDownRows df'⟩ ["Gene_Symbol", "log2(FC)", "Padj"] =
      .ok (selRows df'.cols (topDownRows df') ["Gene_Symbol", "log2(FC)", "Padj"]) :=
    selectCols_ok ⟨df'.cols, topDownRows df'⟩ _ hmem
  have hreq : annotRequests df' = .ok ((dedupFirst (g.filter (fun c => !c.isNa))).take 10) := by
    unfold annotRequests
    rw [hg]
    rfl
  unfold buildReport
  rw [h, ok_bind, hsel1, ok_bind, hsel2, ok_bind, hreq, ok_bind, hg, ok_bind]
  rfl

/-- Conversely, a successful render pass pins down the loaded table, the gene
column, the presence of the three labels, and the report's value. -/
theorem buildReport_ok_inv {stream : Option DataFrame} {annot : Cell → AnnotResp}
    {addResp : Option (Option Nat)} {enrResp : Nat → Option (Option (List (List Cell)))}
    {r : Report} (h : buildReport stream annot addResp enrResp = .ok r) :
    ∃ df' g, loadTable stream = .ok df' ∧ getCol df' "Gene_Symbol" = .ok g ∧
      "Gene_Symbol" ∈ df'.cols ∧ "log2(FC)" ∈ df'.cols ∧ "Padj" ∈ df'.cols ∧
      r = reportOf df' g annot addResp enrResp := by
  unfold buildReport at h
  rw [bind_ok_iff] at h
  obtain ⟨df', hload, h⟩ := h
  rw [bind_ok_iff] at h
  obtain ⟨tu, hsel1, h⟩ := h
  rw [bind_ok_iff] at h
  obtain ⟨td, hsel2, h⟩ := h
  rw [bind_ok_iff] at h
  obtain ⟨reqs, hreq, h⟩ := h
  rw [bind_ok_iff] at h
  obtain ⟨g, hg, h⟩ := h
  have hmem : ∀ c ∈ ["Gene_Symbol", "log2(FC)", "Padj"], c ∈ df'.cols := by
    intro c hc
    by_contra hmiss
    obtain ⟨e, he⟩ := selectCols_error_of_missing ⟨df'.cols, topUpRows df'⟩
      ["Gene_Symbol", "log2(FC)", "Padj"] ⟨c, hc, hmiss⟩
    rw [he] at hsel1
    cases hsel1
  have hgs : "Gene_Symbol" ∈ df'.cols := hmem _ (by simp)
  have hfc : "log2(FC)" ∈ df'.cols := hmem _ (by simp)
  have hp : "Padj" ∈ df'.cols := hmem _ (by simp)
  refine ⟨df', g, hload, hg, hgs, hfc, hp, ?_⟩
  have hb := buildReport_ok hload hg hgs hfc hp annot addResp enrResp
  unfold buildReport at hb
  rw [hload, ok_bind, hsel1, ok_bind, hsel2, ok_bind, hreq, ok_bind, hg, ok_bind] at hb
  have := h.symm.trans hb
  exact Except.ok.inj this

theorem notmem_loaded_cols {df df' : DataFrame} (h : loadTable (some df) = .ok df')
    {c : String} (hc : c ∉ df.cols) (h1 : c ≠ "Regulation") (h2 : c ≠ "IsHub") :
    c ∉ df'.cols := by
  rw [loadTable_cols h]
  simp only [List.mem_append]
  rintro (hin | hin)
  · by_cases hr : "Regulation" ∈ df.cols
    · rw [if_pos hr] at hin
      exact hc hin
    · rw [if_neg hr] at hin
      rcases List.mem_append.mp hin with h3 | h3
      · exact hc h3
      · exact h1 (List.mem_singleton.mp h3)
  · by_cases hm : "IsHub" ∈ df.cols
    · rw [if_pos hm] at hin
      simp at hin
    · rw [if_neg hm] at hin
      exact h2 (List.mem_singleton.mp hin)

/-- C3: a stream that is not valid delimited tabular data, or whose header
lacks one of the required columns, makes the render pass end in an error:
the failure is surfaced (an `Except.error`, nothing silently defaulted) and
no report is produced for that session. -/
theorem parse_or_missing_column_halts (stream : Option DataFrame)
    (annot : Cell → AnnotResp) (addResp : Option (Option Nat))
    (enrResp : Nat → Option (Option (List (List Cell))))
    (hbad : stream = none ∨ ∃ df, stream = some df ∧ (wfB df = false ∨
      "Gene_Symbol" ∉ df.cols ∨ "log2(FC)" ∉ df.cols ∨ "Padj" ∉ df.cols)) :
    ∃ err, buildReport stream annot addResp enrResp = .error err := by
  rcases hbad with rfl | ⟨df, rfl, hcase⟩
  · exact ⟨.parseError, rfl⟩
  · cases hload : loadTable (some df) with
    | error e =>
      refine ⟨e, ?_⟩
      unfold buildReport
      rw [hload, error_bind]
    | ok df' =>
      obtain ⟨hwf, i, hci, _, _⟩ := loadTable_decomp hload
      rcases hcase with hw | hgs | hfc | hp
      · rw [hwf] at hw
        cases hw
      · have hnot : "Gene_Symbol" ∉ df'.cols :=
          notmem_loaded_cols hload hgs (by decide) (by decide)
        obtain ⟨e, he⟩ := selectCols_error_of_missing ⟨df'.cols, topUpRows df'⟩
          ["Gene_Symbol", "log2(FC)", "Padj"] ⟨"Gene_Symbol", by simp, hnot⟩
        refine ⟨e, ?_⟩
        unfold buildReport
        rw [hload, ok_bind, he, error_bind]
      · exact absurd (colIdx?_mem hci) hfc
      · have hnot : "Padj" ∉ df'.cols :=
          notmem_loaded_cols hload hp (by decide) (by decide)
        obtain ⟨e, he⟩ := selectCols_error_of_missing ⟨df'.cols, topUpRows df'⟩
          ["Gene_Symbol", "log2(FC)", "Padj"] ⟨"Padj", by simp, hnot⟩
        refine ⟨e, ?_⟩
        unfold buildReport
        rw [hload, ok_bind, he, error_bind]

/-- Witness for C3: the unparseable stream aborts the render pass. -/
theorem parse_or_missing_column_halts_witness :
    ∃ err, buildReport none noAnnot none noEnr = .error err :=
  parse_or_missing_column_halts none noAnnot none noEnr (Or.inl rfl)

theorem enrichSection_error {a : Option (Option Nat)}
    {e : Nat → Option (Option (List (List Cell)))} (h : getTerms a e = .error ()) :
    enrichSection a e = [.errorMsg] := by
  unfold enrichSection
  rw [h]

theorem enrichSection_empty {a : Option (Option Nat)}
    {e : Nat → Option (Option (List (List Cell)))} (h : getTerms a e = .ok []) :
    enrichSection a e = [.infoMsg] := by
  unfold enrichSection
  rw [h]
  rfl

theorem enrichSection_nonempty {a : Option (Option Nat)}
    {e : Nat → Option (Option (List (List Cell)))} {terms : List (List Cell)}
    (h : getTerms a e = .ok terms) (hne : terms.isEmpty = false) :
    enrichSection a e =
      match (terms.take 5).mapM extractTerm with
      | .error _ => [.errorMsg]
      | .ok rows =>
        match chartVals rows with
        | .error _ => [.termTable rows, .errorMsg]
        | .ok _ => [.termTable rows, .chartMsg rows] := by
  unfold enrichSection
  rw [h]
  show (if terms.isEmpty = true then [Msg.infoMsg] else
    match (terms.take 5).mapM extractTerm with
    | .error _ => [Msg.errorMsg]
    | .ok rows =>
      match chartVals rows with
      | .error _ => [Msg.termTable rows, Msg.errorMsg]
      | .ok _ => [Msg.termTable rows, Msg.chartMsg rows]) = _
  rw [if_neg (by rw [hne]; exact Bool.false_ne_true)]

/-- When some step of the enrichment block raises, the section displays
exactly one error message. -/
theorem enrich_raises_one_error {a : Option (Option Nat)}
    {e : Nat → Option (Option (List (List Cell)))} (h : enrichRaisesB a e = true) :
    (enrichSection a e).countP isErr = 1 := by
  unfold enrichRaisesB at h
  cases hgt : getTerms a e with
  | error u =>
    cases u
    rw [enrichSection_error hgt]
    rfl
  | ok terms =>
    rw [hgt] at h
    have h' : (!terms.isEmpty &&
        (match (terms.take 5).mapM extractTerm with
         | .error _ => true
         | .ok rows =>
           match chartVals rows with
           | .error _ => true
           | .ok _ => false)) = true := h
    cases hemp : terms.isEmpty with
    | true =>
      rw [hemp] at h'
      simp at h'
    | false =>
      rw [hemp] at h'
      simp only [Bool.not_false, Bool.true_and] at h'
      rw [enrichSection_nonempty hgt hemp]
      cases hmap : (terms.take 5).mapM extractTerm with
      | error u => rfl
      | ok rows =>
        rw [hmap] at h'
        have h'' : (match chartVals rows with
          | .error _ => true
          | .ok _ => false) = true := h'
        show List.countP isErr
          (match chartVals rows with
           | .error _ => [Msg.termTable rows, Msg.errorMsg]
           | .ok _ => [Msg.termTable rows, Msg.chartMsg rows]) = 1
        cases hcv : chartVals rows with
        | error u => rfl
        | ok u =>
          rw [hcv] at h''
          exact absurd h'' Bool.false_ne_true

/-- C7: whatever exception any step of the two-step enrichment operation
raises, the render pass still succeeds, every section computed before the
enrichment block (summary counts, top tables, chart, annotations, export) is
exactly what it is under any non-failing service, and the enrichment section
displays exactly one error message. -/
theorem enrich_failure_isolated (stream : Option DataFrame) (annot : Cell → AnnotResp)
    (a₁ : Option (Option Nat)) (e₁ : Nat → Option (Option (List (List Cell))))
    (a₂ : Option (Option Nat)) (e₂ : Nat → Option (Option (List (List Cell))))
    (r₁ : Report) (h₁ : buildReport stream annot a₁ e₁ = .ok r₁)
    (hraise : enrichRaisesB a₂ e₂ = true) :
    ∃ r₂, buildReport stream annot a₂ e₂ = .ok r₂ ∧
      r₂.upCount = r₁.upCount ∧ r₂.downCount = r₁.downCount ∧
      r₂.hubCount = r₁.hubCount ∧ r₂.topUpTable = r₁.topUpTable ∧
      r₂.topDownTable = r₁.topDownTable ∧ r₂.chart = r₁.chart ∧
      r₂.annots = r₁.annots ∧ r₂.exportDf = r₁.exportDf ∧
      r₂.enrichMsgs.countP isErr = 1 := by
  obtain ⟨df', g, hload, hg, hgs, hfc, hp, hr1⟩ := buildReport_ok_inv h₁
  subst hr1
  exact ⟨reportOf df' g annot a₂ e₂, buildReport_ok hload hg hgs hfc hp annot a₂ e₂,
    rfl, rfl, rfl, rfl, rfl, rfl, rfl, rfl, enrich_raises_one_error hraise⟩

/-- Witness for C7: the submit call raising (`none`) leaves all earlier
sections of the concrete report intact and yields exactly one error. -/
theorem enrich_failure_isolated_witness :
    ∃ r₂, buildReport (some c7in) noAnnot none noEnr = .ok r₂ ∧
      r₂.upCount = c7rep.upCount ∧ r₂.downCount = c7rep.downCount ∧
      r₂.hubCount = c7rep.hubCount ∧ r₂.topUpTable = c7rep.topUpTable ∧
      r₂.topDownTable = c7rep.topDownTable ∧ r₂.chart = c7rep.chart ∧
      r₂.annots = c7rep.annots ∧ r₂.exportDf = c7rep.exportDf ∧
      r₂.enrichMsgs.countP isErr = 1 :=
  enrich_failure_isolated (some c7in) noAnnot c7a1 c7e1 none noEnr c7rep
    (by decide) (by decide)

/-- C8: a successful service response with an empty term array yields the
informational "no results" message, which is not an error state and is
distinguishable from the exception outcome. -/
theorem enrich_empty_informational (stream : Option DataFrame)
    (annot : Cell → AnnotResp) (a : Option (Option Nat))
    (e : Nat → Option (Option (List (List Cell)))) (r : Report)
    (hempty : getTerms a e = .ok []) (h : buildReport stream annot a e = .ok r) :
    r.enrichMsgs = [Msg.infoMsg] ∧ (∀ m ∈ r.enrichMsgs, isErr m = false) ∧
    Msg.infoMsg ≠ Msg.errorMsg := by
  obtain ⟨df', g, hload, hg, hgs, hfc, hp, hr1⟩ := buildReport_ok_inv h
  subst hr1
  have hsec : enrichSection a e = [Msg.infoMsg] := enrichSection_empty hempty
  refine ⟨hsec, ?_, by decide⟩
  show ∀ m ∈ enrichSection a e, isErr m = false
  rw [hsec]
  intro m hm
  rw [List.mem_singleton.mp hm]
  rfl

/-- Witness for C8: the empty-array response on the concrete table gives the
informational state. -/
theorem enrich_empty_informational_witness :
    c7rep.enrichMsgs = [Msg.infoMsg] ∧ (∀ m ∈ c7rep.enrichMsgs, isErr m = false) ∧
    Msg.infoMsg ≠ Msg.errorMsg :=
  enrich_empty_informational (some c7in) noAnnot c7a1 c7e1 c7rep (by decide) (by decide)
